import Mathlib

/-!
Shallow embedding of `clover.py`, the audio scraper for
providencebiblefellowship.com, together with proofs about the properties
its specification states.  Pure helper functions of the script
(`sanitize_filename`, `get_date_slug`, `get_subpages`, the filename
derivation) are translated directly; the stateful pagination loop
(`scrape_media_items`), the per-item extraction body and the `main`
catalog loop are embedded as explicit state-passing functions over a
small filesystem model.  Library calls made by the script
(`slugify`, `datetime.strptime`/`strftime`, `os.path.splitext`,
`str.strip`) are modelled by Lean functions that reproduce their
behaviour on the ASCII inputs the script feeds them.
-/

/-! ## Character-level utilities shared by the models -/

/-- Python whitespace for `str.strip()` and the `\s` regex class,
restricted to ASCII: space, tab, newline, carriage return, vertical
tab, form feed. -/
def isPySpace (c : Char) : Bool :=
  c == ' ' || c == '\t' || c == '\n' || c == '\r' || c == '\x0b' || c == '\x0c'

/-- Model of Python `s.strip()`: remove leading and trailing whitespace. -/
def pyStripWs (s : String) : String :=
  String.mk (((s.data.dropWhile isPySpace).reverse.dropWhile isPySpace).reverse)

/-- Model of Python `s.strip("/")` (used on URLs in the script): remove
leading and trailing `/` characters. -/
def stripSlashes (s : String) : String :=
  String.mk (((s.data.dropWhile (fun c => c == '/')).reverse.dropWhile
    (fun c => c == '/')).reverse)

/-- Occurrence of `need` as a contiguous run inside a character list;
the recursion tries every start position. -/
def occursIn (need : List Char) : List Char → Bool
  | [] => need.isEmpty
  | c :: rest => need.isPrefixOf (c :: rest) || occursIn need rest

/-- Model of the Python substring test `pat in s`. -/
def strContains (s pat : String) : Bool :=
  occursIn pat.data s.data

/-! ## Slug Sanitizer

`sanitize_filename` calls the `python-slugify` library:
`slugify(text or "untitled", lowercase=True, separator="-")`.
The model below reproduces the library's behaviour on plain ASCII text
(no quote characters, HTML entity references, digit-group commas or
non-ASCII codepoints): lowercase the text and join its maximal
alphanumeric runs with single hyphens, so that separator characters can
never lead, trail, or repeat. -/

/-- One `foldr` step grouping characters into maximal alphanumeric runs:
an alphanumeric character (lowercased) extends the current run, any
other character closes it. -/
def addSlugChar (c : Char) (acc : List (List Char)) : List (List Char) :=
  if c.isAlphanum then
    match acc with
    | [] => [[c.toLower]]
    | w :: ws => (c.toLower :: w) :: ws
  else
    match acc with
    | [] => []
    | [] :: _ => acc
    | _ => [] :: acc

/-- The (non-empty) maximal alphanumeric runs of a character list. -/
def slugWords (cs : List Char) : List (List Char) :=
  (cs.foldr addSlugChar []).filter (fun w => !w.isEmpty)

/-- Join runs with a single separator character. -/
def joinDash : List (List Char) → List Char
  | [] => []
  | [w] => w
  | w :: w2 :: ws => w ++ '-' :: joinDash (w2 :: ws)

/-- Model of `slugify(text, lowercase=True, separator="-")` on plain
ASCII input. -/
def slugify (s : String) : String :=
  String.mk (joinDash (slugWords s.data))

/-- `sanitize_filename` from `clover.py`: `slugify(text or "untitled", ...)`.
A Python `str` is falsy exactly when it is empty, so the `untitled`
fallback fires only for the empty string. -/
def sanitize_filename (text : String) : String :=
  slugify (if text = "" then "untitled" else text)

/-! ## Date Normalizer

`get_date_slug` calls
`datetime.datetime.strptime(text.strip(), "%B %d, %Y").strftime("%Y-%m-%d")`
and maps any exception to `"unknown-date"`.  The parser below reproduces
CPython `strptime` for this fixed format: a full English month name
matched case-insensitively, one or more whitespace characters, a one- or
two-digit day in 1..31, a literal comma, one or more whitespace
characters, exactly four digits of year, end of string; the resulting
date must be a real calendar date with year at least 1.  `strftime`'s
`%Y-%m-%d` is modelled as the program's platform (glibc) renders it:
`%m` and `%d` zero-padded to two digits, but `%Y` as an unpadded
decimal number, so years below 1000 produce fewer than four digits. -/

def monthTable : List (List Char × Nat) :=
  [("january".data, 1), ("february".data, 2), ("march".data, 3),
   ("april".data, 4), ("may".data, 5), ("june".data, 6),
   ("july".data, 7), ("august".data, 8), ("september".data, 9),
   ("october".data, 10), ("november".data, 11), ("december".data, 12)]

/-- Match a full month name (case-insensitively) at the head of the
input, returning the month number and the rest of the input. -/
def parseMonth (cs : List Char) : Option (Nat × List Char) :=
  monthTable.findSome? fun e =>
    if e.1.isPrefixOf (cs.map Char.toLower) then some (e.2, cs.drop e.1.length)
    else none

/-- Require at least one whitespace character, then skip the whole run
(the `\s+` the format string's literal spaces compile to). -/
def skipSpaces1 (cs : List Char) : Option (List Char) :=
  match cs with
  | c :: rest => if isPySpace c then some (rest.dropWhile isPySpace) else none
  | [] => none

/-- Split off the leading digit run. -/
def takeDigits (cs : List Char) : List Char × List Char :=
  (cs.takeWhile Char.isDigit, cs.dropWhile Char.isDigit)

/-- Numeric value of a digit run. -/
def digitsVal (ds : List Char) : Nat :=
  ds.foldl (fun n c => n * 10 + (c.toNat - 48)) 0

/-- Gregorian leap-year test, as in Python's `datetime`. -/
def isLeap (y : Nat) : Bool :=
  (y % 4 == 0 && y % 100 != 0) || y % 400 == 0

/-- Days in a month, as validated by the `datetime` constructor. -/
def daysInMonth (y m : Nat) : Nat :=
  if m == 2 then (if isLeap y then 29 else 28)
  else if m == 4 || m == 6 || m == 9 || m == 11 then 30
  else 31

/-- Model of `datetime.strptime(s, "%B %d, %Y")`: returns
`(year, month, day)` on success, `none` where CPython raises. -/
def parseDate (cs : List Char) : Option (Nat × Nat × Nat) :=
  match parseMonth cs with
  | none => none
  | some (m, r1) =>
    match skipSpaces1 r1 with
    | none => none
    | some r2 =>
      let dd := takeDigits r2
      if dd.1.length = 1 ∨ dd.1.length = 2 then
        let d := digitsVal dd.1
        if 1 ≤ d ∧ d ≤ 31 then
          match dd.2 with
          | ',' :: r3 =>
            match skipSpaces1 r3 with
            | none => none
            | some r4 =>
              let yy := takeDigits r4
              if yy.1.length = 4 ∧ yy.2.isEmpty then
                let y := digitsVal yy.1
                if 1 ≤ y ∧ d ≤ daysInMonth y m then some (y, m, d) else none
              else none
          | _ => none
        else none
      else none

/-- Zero-pad a number to a given width. -/
def padNum (w n : Nat) : String :=
  String.mk (List.replicate (w - (toString n).length) '0') ++ toString n

/-- Model of `strftime("%Y-%m-%d")` as the program runs it on glibc:
the year is rendered as an unpadded decimal (glibc does not zero-pad
`%Y`, so years below 1000 yield fewer than four digits), month and day
are zero-padded to two digits. -/
def formatDate (y m d : Nat) : String :=
  toString y ++ "-" ++ padNum 2 m ++ "-" ++ padNum 2 d

/-- Modelled from the spec: the canonical `YYYY-MM-DD` rendering the
claim asserts for every matching input — year zero-padded to four
digits, month and day to two; it exists only to state where
`get_date_slug` deviates from the claim. -/
def canonicalDate (y m d : Nat) : String :=
  padNum 4 y ++ "-" ++ padNum 2 m ++ "-" ++ padNum 2 d

/-- `get_date_slug` from `clover.py`: parse the stripped text with
`strptime("%B %d, %Y")` and reformat; every parse failure is caught and
mapped to the sentinel `"unknown-date"` (the model is a total function,
so the `except` clause is the `none` branch). -/
def get_date_slug (text : String) : String :=
  match parseDate (pyStripWs text).data with
  | some (y, m, d) => formatDate y m d
  | none => "unknown-date"

/-! ## Asset URL extension

`ext = os.path.splitext(mp3_url)[-1]` in the script.  The model follows
`posixpath.splitext`: the extension starts at the last dot of the last
path segment, unless every character of the segment before that dot is
itself a dot (hidden files have no extension). -/

/-- Model of `os.path.splitext(p)[-1]`. -/
def splitextExt (p : String) : String :=
  let base := (p.data.reverse.takeWhile (fun c => !(c == '/'))).reverse
  let stem := base.dropWhile (fun c => c == '.')
  if stem.any (fun c => c == '.') then
    String.mk ('.' :: (stem.reverse.takeWhile (fun c => !(c == '.'))).reverse)
  else ""

/-! ## Catalog Discoverer -/

/-- The script's fixed entry URL. -/
def START_URL : String := "https://providencebiblefellowship.com/seminars"

/-- The substring the script's link filter tests for. -/
def SITE_MARK : String := "providencebiblefellowship.com/"

/-- Insert a string into a strictly sorted list, dropping it when
already present. -/
def insertSorted (a : String) : List String → List String
  | [] => [a]
  | b :: bs =>
    if a = b then b :: bs
    else if a < b then a :: b :: bs
    else b :: insertSorted a bs

/-- Model of Python `sorted(set(xs))` for strings: the distinct
elements in increasing lexicographic order. -/
def dedupSort (xs : List String) : List String :=
  xs.foldr insertSorted []

/-- `get_subpages` from `clover.py`, as a function of the hyperlink
targets collected from the entry page:
`sorted(set([link for link in links if "providencebiblefellowship.com/" in link
and link.strip("/") != START_URL.strip("/")]))`. -/
def get_subpages (links : List String) : List String :=
  dedupSort (links.filter fun link =>
    strContains link SITE_MARK && !(stripSlashes link == stripSlashes START_URL))

/-- The characters after the first occurrence of `mark`, when one
exists. -/
def afterMark (mark : List Char) : List Char → Option (List Char)
  | [] => none
  | c :: rest =>
    if mark.isPrefixOf (c :: rest) then some ((c :: rest).drop mark.length)
    else afterMark mark rest

/-- Modelled from the spec: the host component of a URL, the text
between the scheme separator `://` and the following slash; the spec's
claim filters to "links whose host matches the site's own domain", and
this definition exists only to state that claim for comparison with
`get_subpages`. -/
def specHost (url : String) : String :=
  match afterMark "://".data url.data with
  | some rest => String.mk (rest.takeWhile fun c => !(c == '/'))
  | none => ""

/-- Modelled from the spec: the Catalog Discoverer output as the claim
describes it, filtering on the link's host rather than on a substring;
used only as the comparison point showing where `get_subpages`
deviates. -/
def spec_subpages (links : List String) : List String :=
  dedupSort (links.filter fun link =>
    specHost link == "providencebiblefellowship.com" &&
      !(stripSlashes link == stripSlashes START_URL))

/-! ## Pagination Crawler

`scrape_media_items` loops over listing pages.  A page either times out
waiting for `.media-card` (which raises out of the function) or yields
a list of cards; each card's identifier is its `data-id` attribute when
present and non-empty (Python `or` falls through on `None` and `""`),
else the positional fallback `idx-<n>`. -/

/-- One media card: its optional `data-id` attribute. -/
structure Card where
  dataId : Option String
deriving DecidableEq, Repr

/-- `await btn.get_attribute("data-id") or f"idx-{idx}"`. -/
def resolveId (idx : Nat) (c : Card) : String :=
  match c.dataId with
  | some s => if s = "" then "idx-" ++ toString idx else s
  | none => "idx-" ++ toString idx

/-- The page's resolved identifiers, in DOM order, positions counted
from zero as by `enumerate`. -/
def resolveIds (cards : List Card) : List String :=
  cards.enum.map fun p => resolveId p.1 p.2

/-- `any(mid in seen_ids for mid in media_ids)`. -/
def hasRepeat (seen ids : List String) : Bool :=
  ids.any fun mid => seen.contains mid

/-- What one listing-page visit can yield: a timeout of the bounded
wait for `.media-card`, or the page's cards. -/
inductive PageLoad
  | timeout (msg : String)
  | cards (cs : List Card)
deriving DecidableEq, Repr

/-- Outcome of the pagination loop for one catalog: the page numbers
visited in order, the pages (with their cards) handed to item
extraction in order, and the error message when a page load aborted the
catalog. -/
structure CrawlRes where
  visited : List Nat
  processed : List (Nat × List Card)
  err : Option String
deriving DecidableEq, Repr

/-- The `while True` pagination loop of `scrape_media_items`, driven by
the successive page loads: a timeout raises out of the loop; a page any
of whose identifiers was already seen breaks before item extraction;
otherwise the identifiers are merged into `seen` and the page's cards
are extracted before moving to the next page number. -/
def crawl (seen : List String) (pageNum : Nat) : List PageLoad → CrawlRes
  | [] => ⟨[], [], none⟩
  | .timeout msg :: _ => ⟨[pageNum], [], some msg⟩
  | .cards cs :: rest =>
    let ids := resolveIds cs
    if hasRepeat seen ids then ⟨[pageNum], [], none⟩
    else
      let r := crawl (seen ++ ids) (pageNum + 1) rest
      ⟨pageNum :: r.visited, (pageNum, cs) :: r.processed, r.err⟩

/-- The identifiers accumulated from the first `n` pages of a catalog's
card lists. -/
def seenUpto (ps : List (List Card)) (n : Nat) : List String :=
  ((ps.take n).map resolveIds).flatten

/-! ## Item Extractor

The body of the `for idx, button in enumerate(media_buttons)` loop,
embedded over an explicit filesystem state.  The per-catalog metadata
and failure logs are the append-only record lists the script writes to
`metadata.txt` and `failed.txt`. -/

/-- The data revealed for one item once its player has loaded: the
asset URL and the four optional metadata elements (absent element =
`none`, triggering the script's named fallback). -/
structure ItemData where
  mp3Url : String
  title : Option String
  date : Option String
  speaker : Option String
  series : Option String
deriving DecidableEq, Repr

/-- What driving one card can do: reveal its data, or raise (click or
wait timeout) before any side effect of this item happens. -/
inductive ItemStep
  | ok (d : ItemData)
  | raise (msg : String)
deriving DecidableEq, Repr

/-- `title = ... if title_el else f"untitled-{idx+1}"`. -/
def itemTitle (idx : Nat) (d : ItemData) : String :=
  d.title.getD ("untitled-" ++ toString (idx + 1))

/-- `date = ... if date_el else ""`. -/
def itemDate (d : ItemData) : String :=
  d.date.getD ""

/-- `speaker = ... if speaker_el else "unknown-speaker"`. -/
def itemSpeaker (d : ItemData) : String :=
  d.speaker.getD "unknown-speaker"

/-- `series = ... if series_el else "unknown-series"`. -/
def itemSeries (d : ItemData) : String :=
  d.series.getD "unknown-series"

/-- The filename derivation of `scrape_media_items`:
`f"{slug}_{date_slug}_{clean_series}_{clean_speaker}_{clean_title}{ext}"`. -/
def computeFilename (slug : String) (idx : Nat) (d : ItemData) : String :=
  slug ++ "_" ++ get_date_slug (itemDate d) ++ "_" ++
    sanitize_filename (itemSeries d) ++ "_" ++
    sanitize_filename (itemSpeaker d) ++ "_" ++
    sanitize_filename (itemTitle idx d) ++ splitextExt d.mp3Url

/-- One block of `metadata.txt`. -/
structure MetaRec where
  filename : String
  title : String
  date : String
  speaker : String
  series : String
  mp3Url : String
deriving DecidableEq, Repr

/-- One block of `failed.txt`: `Item {idx+1} on {url}` plus the error
text. -/
structure FailRec where
  pos : Nat
  pageUrl : String
  error : String
deriving DecidableEq, Repr

/-- The filesystem state the extractor touches: downloaded asset files
(path, content) and the catalog's two append-only logs. -/
structure FS where
  files : List (String × String)
  metadata : List MetaRec
  failed : List FailRec
deriving DecidableEq, Repr

/-- An HTTP GET response for an asset URL. -/
structure Resp where
  status : Nat
  body : String
deriving DecidableEq, Repr

/-- `os.path.exists` over the file model. -/
def existsFile (files : List (String × String)) (path : String) : Bool :=
  files.any fun e => e.1 == path

/-- `open(path, "wb")` then write: exactly one file per path. -/
def writeFile (files : List (String × String)) (path content : String) :
    List (String × String) :=
  (path, content) :: files.filter fun e => !(e.1 == path)

/-- `download_mp3` from `clover.py`: on status 200 write the response
body to the path and report success, otherwise report failure without
touching the filesystem and without raising. -/
def download_mp3 (http : String → Resp) (url path : String) (fs : FS) :
    FS × Bool :=
  let r := http url
  if r.status = 200 then
    ({ fs with files := writeFile fs.files path r.body }, true)
  else (fs, false)

/-- The metadata block the extractor appends for an item. -/
def metaRecOf (slug : String) (idx : Nat) (d : ItemData) : MetaRec :=
  ⟨computeFilename slug idx d, itemTitle idx d, itemDate d,
   itemSpeaker d, itemSeries d, d.mp3Url⟩

/-- Observable per-item events, mirroring the script's status lines. -/
inductive Ev
  | downloaded (path : String)
  | downloadFailed (url : String)
  | alreadyDownloaded (path : String)
  | itemFailed (pos : Nat)
deriving DecidableEq, Repr

/-- The `try`/`except` body for one card: on success derive the
filename, skip the download when the file already exists, otherwise
fetch it, and append a metadata block either way; on an exception
append one failure block with the one-based position, page URL and
error text. -/
def processItem (http : String → Resp) (slug folder pageUrl : String)
    (idx : Nat) (step : ItemStep) (fs : FS) : FS × List Ev :=
  match step with
  | .raise msg =>
    ({ fs with failed := fs.failed ++ [⟨idx + 1, pageUrl, msg⟩] },
     [Ev.itemFailed (idx + 1)])
  | .ok d =>
    let filename := computeFilename slug idx d
    let filepath := folder ++ "/" ++ filename
    let dres :=
      if existsFile fs.files filepath then (fs, [Ev.alreadyDownloaded filepath])
      else
        let dl := download_mp3 http d.mp3Url filepath fs
        (dl.1, [if dl.2 then Ev.downloaded filepath else Ev.downloadFailed d.mp3Url])
    ({ dres.1 with metadata := dres.1.metadata ++ [metaRecOf slug idx d] }, dres.2)

/-- The item loop over one page's cards, positions counted from `idx`. -/
def processItems (http : String → Resp) (slug folder pageUrl : String) :
    Nat → FS → List ItemStep → FS × List Ev
  | _, fs, [] => (fs, [])
  | idx, fs, step :: rest =>
    let r1 := processItem http slug folder pageUrl idx step fs
    let r2 := processItems http slug folder pageUrl (idx + 1) r1.1 rest
    (r2.1, r1.2 ++ r2.2)

/-- The failure blocks a run of the item loop appends: one per raising
item, holding its one-based position and the page URL. -/
def failBlocks (pageUrl : String) : Nat → List ItemStep → List FailRec
  | _, [] => []
  | idx, .raise msg :: rest => ⟨idx + 1, pageUrl, msg⟩ :: failBlocks pageUrl (idx + 1) rest
  | idx, .ok _ :: rest => failBlocks pageUrl (idx + 1) rest

/-- Items whose extraction completes. -/
def isOkStep : ItemStep → Bool
  | .ok _ => true
  | .raise _ => false

/-! ## Main loop over catalogs -/

/-- One catalog: its base URL and the successive page loads it serves. -/
structure Catalog where
  baseUrl : String
  pages : List PageLoad
deriving DecidableEq, Repr

/-- Per-catalog outcome reported by `main`'s loop. -/
inductive MainEv
  | catalogOk (url : String)
  | catalogFailed (url : String) (msg : String)
deriving DecidableEq, Repr

/-- `scrape_media_items` for one catalog starts with an empty seen set
at page 1. -/
def runCatalog (c : Catalog) : CrawlRes :=
  crawl [] 1 c.pages

/-- The `for url in subpages: try ... except` loop of `main`: a raising
catalog is logged as failed and the loop continues with the next one. -/
def mainLoop : List Catalog → List MainEv
  | [] => []
  | c :: rest =>
    (match (runCatalog c).err with
     | some msg => MainEv.catalogFailed c.baseUrl msg
     | none => MainEv.catalogOk c.baseUrl) :: mainLoop rest

/-! ## Properties of the Slug Sanitizer -/

theorem flatten_addSlugChar_alnum (c : Char) (hc : c.isAlphanum = true)
    (acc : List (List Char)) :
    (addSlugChar c acc).flatten = c.toLower :: acc.flatten := by
  cases acc <;> simp [addSlugChar, hc]

theorem flatten_addSlugChar_other (c : Char) (hc : c.isAlphanum = false)
    (acc : List (List Char)) :
    (addSlugChar c acc).flatten = acc.flatten := by
  match acc with
  | [] => simp [addSlugChar, hc]
  | [] :: ws => simp [addSlugChar, hc]
  | (x :: w) :: ws => simp [addSlugChar, hc]

theorem flatten_slug_runs (cs : List Char) :
    (cs.foldr addSlugChar []).flatten =
      (cs.filter Char.isAlphanum).map Char.toLower := by
  induction cs with
  | nil => rfl
  | cons c cs ih =>
    rw [List.foldr_cons]
    cases hc : c.isAlphanum with
    | false =>
      rw [flatten_addSlugChar_other c hc, ih]
      simp [List.filter_cons, hc]
    | true =>
      rw [flatten_addSlugChar_alnum c hc, ih]
      simp [List.filter_cons, hc]

theorem flatten_filter_nonempty (ls : List (List Char)) :
    (ls.filter (fun w => !w.isEmpty)).flatten = ls.flatten := by
  induction ls with
  | nil => rfl
  | cons w ls ih =>
    cases w with
    | nil => simpa [List.filter_cons] using ih
    | cons a w => simp [List.filter_cons, ih]

theorem slugWords_flatten (cs : List Char) :
    (slugWords cs).flatten = (cs.filter Char.isAlphanum).map Char.toLower := by
  rw [slugWords, flatten_filter_nonempty, flatten_slug_runs]

theorem mem_slugWords_ne_nil {w cs : List Char} (h : w ∈ slugWords cs) :
    w ≠ [] := by
  intro hw
  subst hw
  have := List.of_mem_filter h
  simp at this

theorem joinDash_ne_nil {w : List Char} (ws : List (List Char)) (hw : w ≠ []) :
    joinDash (w :: ws) ≠ [] := by
  cases ws with
  | nil => simpa [joinDash] using hw
  | cons w2 ws =>
    cases w with
    | nil => exact absurd rfl hw
    | cons a w => simp [joinDash]

theorem slugify_ne_empty {s : String}
    (h : s.data.any Char.isAlphanum = true) : slugify s ≠ "" := by
  have hfilter : s.data.filter Char.isAlphanum ≠ [] := by
    obtain ⟨c, hc, hal⟩ := List.any_eq_true.mp h
    intro hnil
    have hcmem : c ∈ s.data.filter Char.isAlphanum := List.mem_filter.mpr ⟨hc, hal⟩
    rw [hnil] at hcmem
    exact List.not_mem_nil c hcmem
  have hflat : (slugWords s.data).flatten ≠ [] := by
    rw [slugWords_flatten]
    intro hmap
    exact hfilter (List.map_eq_nil_iff.mp hmap)
  match hsw : slugWords s.data with
  | [] => rw [hsw] at hflat; exact absurd rfl hflat
  | w :: ws =>
    have hw : w ≠ [] := mem_slugWords_ne_nil (hsw ▸ List.mem_cons_self w ws)
    have hjoin : joinDash (w :: ws) ≠ [] := joinDash_ne_nil ws hw
    rw [slugify, hsw]
    intro hstr
    exact hjoin (congrArg String.data hstr)

/-- Claim C2 counterexample: `sanitize_filename` applied to the
whitespace-only input `" "` returns the empty string, not `"untitled"`
— in Python, `" "` is truthy, so the `or "untitled"` fallback does not
fire and `slugify(" ")` strips the lone space to nothing. -/
theorem claim_C2_cex :
    sanitize_filename " " = "" ∧ sanitize_filename " " ≠ "untitled" := by
  exact ⟨rfl, by decide⟩

/-- Claim C2 (amended): the Slug Sanitizer returns exactly `"untitled"`
for the empty input, returns the empty string for the whitespace-only
input `" "`, and returns a non-empty string for every input containing
at least one ASCII alphanumeric character. -/
theorem claim_C2 :
    sanitize_filename "" = "untitled" ∧
    sanitize_filename " " = "" ∧
    (∀ t : String, t.data.any Char.isAlphanum = true →
      sanitize_filename t ≠ "") := by
  refine ⟨rfl, rfl, ?_⟩
  intro t h
  have ht : ¬ t = "" := by
    intro h0
    rw [h0] at h
    exact absurd h (by decide)
  rw [sanitize_filename, if_neg ht]
  exact slugify_ne_empty h

/-- Witness for the amended claim C2 at the concrete input `"x!"`. -/
theorem claim_C2_witness :
    ("x!".data.any Char.isAlphanum = true) ∧ sanitize_filename "x!" ≠ "" :=
  ⟨by decide, claim_C2.2.2 "x!" (by decide)⟩

/-- Claim C3 counterexample: the input `"May 5, 0776"` matches the
`"%B %d, %Y"` format (the year field accepts any four digits), yet the
program renders it `"776-05-05"` — glibc leaves `%Y` unpadded below
1000 — which is not the canonical `YYYY-MM-DD` form `"0776-05-05"`
the claim asserts for every matching input. -/
theorem claim_C3_cex :
    parseDate (pyStripWs "May 5, 0776").data = some (776, 5, 5) ∧
    get_date_slug "May 5, 0776" = "776-05-05" ∧
    get_date_slug "May 5, 0776" ≠ canonicalDate 776 5 5 := by
  exact ⟨by decide, by decide, by decide⟩

/-- Claim C3 (amended): the Date Normalizer is a total function that
never raises; for every input whose stripped form the `"%B %d, %Y"`
parser rejects it returns exactly the sentinel `"unknown-date"`, and
for every matching input it returns the `strftime("%Y-%m-%d")`
rendering the program produces — month and day zero-padded to two
digits, the year as an unpadded decimal — which agrees with the
canonical `YYYY-MM-DD` form at the claim's example
`"March 3, 2024"` (with surrounding whitespace) and every other
year rendered with four digits, while years below 1000 lose their
leading zeros (see the counterexample). -/
theorem claim_C3 :
    (∀ s : String, parseDate (pyStripWs s).data = none →
      get_date_slug s = "unknown-date") ∧
    (∀ (s : String) (y m d : Nat),
      parseDate (pyStripWs s).data = some (y, m, d) →
      get_date_slug s = formatDate y m d) ∧
    get_date_slug "  March 3, 2024  " = "2024-03-03" ∧
    get_date_slug "March 3 2024" = "unknown-date" ∧
    get_date_slug "" = "unknown-date" ∧
    get_date_slug "not a date" = "unknown-date" := by
  refine ⟨?_, ?_, by decide, by decide, by decide, by decide⟩
  · intro s h
    simp only [get_date_slug, h]
  · intro s y m d h
    simp only [get_date_slug, h]

/-- Witness for claim C3 at the concrete inputs `"nope"` (rejected) and
`"July 4, 1776"` (parsed). -/
theorem claim_C3_witness :
    (parseDate (pyStripWs "nope").data = none ∧
      get_date_slug "nope" = "unknown-date") ∧
    (parseDate (pyStripWs "July 4, 1776").data = some (1776, 7, 4) ∧
      get_date_slug "July 4, 1776" = formatDate 1776 7 4) :=
  ⟨⟨by decide, claim_C3.1 "nope" (by decide)⟩,
   ⟨by decide, claim_C3.2.1 "July 4, 1776" 1776 7 4 (by decide)⟩⟩

/-! ## Properties of the Catalog Discoverer -/

theorem mem_insertSorted (a x : String) (l : List String) :
    x ∈ insertSorted a l ↔ x = a ∨ x ∈ l := by
  induction l with
  | nil => simp [insertSorted]
  | cons b bs ih =>
    rw [insertSorted]
    by_cases hab : a = b
    · subst hab
      rw [if_pos rfl]
      simp only [List.mem_cons]
      tauto
    · rw [if_neg hab]
      by_cases halt : a < b
      · rw [if_pos halt]
        simp only [List.mem_cons]
      · rw [if_neg halt]
        simp only [List.mem_cons, ih]
        tauto

theorem pairwise_insertSorted (a : String) (l : List String)
    (h : l.Pairwise (fun x y => x < y)) :
    (insertSorted a l).Pairwise (fun x y => x < y) := by
  induction l with
  | nil => simp [insertSorted]
  | cons b bs ih =>
    rw [insertSorted]
    rcases List.pairwise_cons.mp h with ⟨hb, hbs⟩
    by_cases hab : a = b
    · rw [if_pos hab]
      exact h
    · rw [if_neg hab]
      by_cases halt : a < b
      · rw [if_pos halt]
        refine List.pairwise_cons.mpr ⟨?_, h⟩
        intro x hx
        rcases List.mem_cons.mp hx with rfl | hx
        · exact halt
        · exact lt_trans halt (hb x hx)
      · rw [if_neg halt]
        refine List.pairwise_cons.mpr ⟨?_, ih hbs⟩
        intro x hx
        rcases (mem_insertSorted a x bs).mp hx with rfl | hx
        · exact lt_of_le_of_ne (not_lt.mp halt) (fun hba => hab hba.symm)
        · exact hb x hx

theorem mem_dedupSort (x : String) (xs : List String) :
    x ∈ dedupSort xs ↔ x ∈ xs := by
  induction xs with
  | nil => simp [dedupSort]
  | cons a xs ih =>
    rw [dedupSort, List.foldr_cons]
    rw [mem_insertSorted]
    rw [show List.foldr insertSorted [] xs = dedupSort xs from rfl, ih]
    simp [List.mem_cons]

theorem pairwise_dedupSort (xs : List String) :
    (dedupSort xs).Pairwise (fun x y => x < y) := by
  induction xs with
  | nil => simp [dedupSort]
  | cons a xs ih => exact pairwise_insertSorted a _ ih

/-- Claim C5 counterexample: `get_subpages` filters by substring
containment of `"providencebiblefellowship.com/"`, not by the link's
host, so a link on a foreign host that merely mentions the domain in
its path is returned, while the claim's host-based filter
(`spec_subpages`) excludes it. -/
theorem claim_C5_cex :
    get_subpages ["https://evil.example/providencebiblefellowship.com/a"] =
      ["https://evil.example/providencebiblefellowship.com/a"] ∧
    spec_subpages ["https://evil.example/providencebiblefellowship.com/a"] = [] ∧
    specHost "https://evil.example/providencebiblefellowship.com/a" ≠
      "providencebiblefellowship.com" := by
  exact ⟨by decide, by decide, by decide⟩

/-- Claim C5 (amended): for every collection of hyperlinks,
`get_subpages` returns exactly the links that contain the substring
`"providencebiblefellowship.com/"` (a substring test, not a host
comparison) and whose slash-stripped form differs from the entry URL's
slash-stripped form, deduplicated and in strictly increasing
lexicographic order; in particular the entry URL itself is excluded
under any trailing-slash variation. -/
theorem claim_C5 (links : List String) :
    (get_subpages links).Pairwise (fun x y => x < y) ∧
    (∀ l : String, l ∈ get_subpages links ↔
      (l ∈ links ∧ strContains l SITE_MARK = true ∧
        stripSlashes l ≠ stripSlashes START_URL)) ∧
    START_URL ∉ get_subpages links ∧
    (START_URL ++ "/") ∉ get_subpages links := by
  have hmem : ∀ l : String, l ∈ get_subpages links ↔
      (l ∈ links ∧ strContains l SITE_MARK = true ∧
        stripSlashes l ≠ stripSlashes START_URL) := by
    intro l
    rw [get_subpages, mem_dedupSort, List.mem_filter]
    simp only [Bool.and_eq_true, Bool.not_eq_true', beq_eq_false_iff_ne]
  refine ⟨pairwise_dedupSort _, hmem, ?_, ?_⟩
  · intro h
    rcases (hmem START_URL).mp h with ⟨_, _, h3⟩
    exact h3 rfl
  · intro h
    rcases (hmem (START_URL ++ "/")).mp h with ⟨_, _, h3⟩
    exact h3 (by decide)

/-! ## Properties of the Pagination Crawler -/

theorem crawl_first_repeat :
    ∀ (k : Nat) (ps : List (List Card)) (seen : List String) (n : Nat),
    k < ps.length →
    (∀ i, i < k →
      hasRepeat (seen ++ seenUpto ps i) (resolveIds (ps.getD i [])) = false) →
    hasRepeat (seen ++ seenUpto ps k) (resolveIds (ps.getD k [])) = true →
    crawl seen n (ps.map PageLoad.cards) =
      ⟨List.range' n (k + 1), (List.range' n k).zip (ps.take k), none⟩ := by
  intro k
  induction k with
  | zero =>
    intro ps seen n hk hpre hrep
    match ps, hk with
    | p :: rest, _ =>
      have hrep' : hasRepeat seen (resolveIds p) = true := by
        simpa [seenUpto] using hrep
      simp [crawl, hrep', List.range']
  | succ k ih =>
    intro ps seen n hk hpre hrep
    match ps, hk with
    | p :: rest, hk =>
      have h0 : hasRepeat seen (resolveIds p) = false := by
        simpa [seenUpto] using hpre 0 (Nat.succ_pos k)
      have hk' : k < rest.length := Nat.lt_of_succ_lt_succ hk
      have hpre' : ∀ i, i < k →
          hasRepeat ((seen ++ resolveIds p) ++ seenUpto rest i)
            (resolveIds (rest.getD i [])) = false := by
        intro i hi
        have hstep := hpre (i + 1) (Nat.succ_lt_succ hi)
        simpa [seenUpto, List.take_succ_cons, List.append_assoc] using hstep
      have hrep' : hasRepeat ((seen ++ resolveIds p) ++ seenUpto rest k)
          (resolveIds (rest.getD k [])) = true := by
        simpa [seenUpto, List.take_succ_cons, List.append_assoc] using hrep
      have hrec := ih rest (seen ++ resolveIds p) (n + 1) hk' hpre' hrep'
      simp only [List.map_cons, crawl, h0, Bool.false_eq_true, if_false, hrec,
        List.range'_succ, List.take_succ_cons, List.zip_cons_cons]

/-- Claim C1: when page `k+1` (one-based page `N = k+1`) is the first
page whose resolved identifiers intersect the identifiers accumulated
from the previous pages, the crawler visits exactly pages `1..N` in
increasing order, hands exactly pages `1..N-1` (with their cards) to
the Item Extractor, and no entry for page `N` appears in the processed
list — the loop breaks before extraction on the repeating page. -/
theorem claim_C1 (ps : List (List Card)) (k : Nat) (hk : k < ps.length)
    (hpre : ∀ i, i < k →
      hasRepeat (seenUpto ps i) (resolveIds (ps.getD i [])) = false)
    (hrep : hasRepeat (seenUpto ps k) (resolveIds (ps.getD k [])) = true) :
    crawl [] 1 (ps.map PageLoad.cards) =
      ⟨List.range' 1 (k + 1), (List.range' 1 k).zip (ps.take k), none⟩ ∧
    ∀ pr ∈ (crawl [] 1 (ps.map PageLoad.cards)).processed, pr.1 ≠ k + 1 := by
  have heq := crawl_first_repeat k ps [] 1 hk
    (by intro i hi; simpa using hpre i hi) (by simpa using hrep)
  refine ⟨heq, ?_⟩
  intro pr hpr
  rw [heq] at hpr
  rcases pr with ⟨a, b⟩
  have ha : a ∈ List.range' 1 k := (List.of_mem_zip hpr).1
  have := List.mem_range'_1.mp ha
  omega

/-- Witness for claim C1 on the spec's own scenario: page 1 has
identifiers `a, b`, page 2 has `b, c`; the crawler visits pages 1 and 2
and extracts only page 1's two cards. -/
theorem claim_C1_witness :
    (1 < ([[Card.mk (some "a"), Card.mk (some "b")],
           [Card.mk (some "b"), Card.mk (some "c")]] : List (List Card)).length) ∧
    crawl [] 1 ([[Card.mk (some "a"), Card.mk (some "b")],
                 [Card.mk (some "b"), Card.mk (some "c")]].map PageLoad.cards) =
      ⟨[1, 2], [(1, [Card.mk (some "a"), Card.mk (some "b")])], none⟩ :=
  ⟨by decide,
    (claim_C1 [[Card.mk (some "a"), Card.mk (some "b")],
               [Card.mk (some "b"), Card.mk (some "c")]] 1
      (by decide) (by decide) (by decide)).1.trans (by decide)⟩

/-- Claim C10: repeat detection compares a page's identifiers only
against previously seen ones, never against each other — a page whose
own identifier list contains a duplicate, none of whose identifiers was
seen before, is not treated as a repeat: all of its cards (both
duplicates included) are handed to the Item Extractor and the crawl
continues with the next page number and the merged seen set. -/
theorem claim_C10 (seen : List String) (n : Nat) (cards : List Card)
    (rest : List PageLoad) (i j : Nat)
    (hi : i < (resolveIds cards).length) (hj : j < (resolveIds cards).length)
    (hij : i ≠ j)
    (hdup : (resolveIds cards).getD i "" = (resolveIds cards).getD j "")
    (hnew : hasRepeat seen (resolveIds cards) = false) :
    crawl seen n (PageLoad.cards cards :: rest) =
      ⟨n :: (crawl (seen ++ resolveIds cards) (n + 1) rest).visited,
       (n, cards) :: (crawl (seen ++ resolveIds cards) (n + 1) rest).processed,
       (crawl (seen ++ resolveIds cards) (n + 1) rest).err⟩ := by
  simp only [crawl, hnew, Bool.false_eq_true, if_false]

/-- Witness for claim C10: a page with two cards both resolving to
identifier `a`, followed by a page with identifier `b` — both duplicate
cards are extracted and pagination continues to page 2. -/
theorem claim_C10_witness :
    (resolveIds [Card.mk (some "a"), Card.mk (some "a")]).getD 0 "" =
      (resolveIds [Card.mk (some "a"), Card.mk (some "a")]).getD 1 "" ∧
    hasRepeat [] (resolveIds [Card.mk (some "a"), Card.mk (some "a")]) = false ∧
    crawl [] 1 (PageLoad.cards [Card.mk (some "a"), Card.mk (some "a")] ::
        [PageLoad.cards [Card.mk (some "b")]]) =
      ⟨[1, 2], [(1, [Card.mk (some "a"), Card.mk (some "a")]),
                (2, [Card.mk (some "b")])], none⟩ :=
  ⟨by decide, by decide,
    (claim_C10 [] 1 [Card.mk (some "a"), Card.mk (some "a")]
      [PageLoad.cards [Card.mk (some "b")]] 0 1
      (by decide) (by decide) (by decide) (by decide) (by decide)).trans
      (by decide)⟩

/-- Claim C9: a page-load timeout aborts exactly the enclosing
catalog — the crawl for that catalog records the failed page visit,
processes no further page, and surfaces the error — while `main`'s
loop logs the failure for that catalog and continues with every
following catalog, so no catalog-level error shortens the run (one
outcome per catalog, always). -/
theorem claim_C9 :
    (∀ (seen : List String) (n : Nat) (msg : String) (rest : List PageLoad),
      crawl seen n (PageLoad.timeout msg :: rest) = ⟨[n], [], some msg⟩) ∧
    (∀ (pre post : List Catalog) (c : Catalog) (msg : String),
      (runCatalog c).err = some msg →
      mainLoop (pre ++ c :: post) =
        mainLoop pre ++ MainEv.catalogFailed c.baseUrl msg :: mainLoop post) ∧
    (∀ cs : List Catalog, (mainLoop cs).length = cs.length) := by
  refine ⟨fun seen n msg rest => rfl, ?_, ?_⟩
  · intro pre post c msg h
    induction pre with
    | nil => simp [mainLoop, h]
    | cons a pre ih => simp [mainLoop, ih]
  · intro cs
    induction cs with
    | nil => rfl
    | cons c cs ih => simp [mainLoop, ih]

/-- Witness for claim C9: a catalog timing out on its first page is
reported failed and the next catalog is still processed. -/
theorem claim_C9_witness :
    (runCatalog ⟨"https://example.org/u",
        [PageLoad.timeout "Timeout 10000ms exceeded"]⟩).err =
      some "Timeout 10000ms exceeded" ∧
    mainLoop [⟨"https://example.org/u", [PageLoad.timeout "Timeout 10000ms exceeded"]⟩,
              ⟨"https://example.org/v", []⟩] =
      [MainEv.catalogFailed "https://example.org/u" "Timeout 10000ms exceeded",
       MainEv.catalogOk "https://example.org/v"] :=
  ⟨by decide,
    (claim_C9.2.1 [] [⟨"https://example.org/v", []⟩]
      ⟨"https://example.org/u", [PageLoad.timeout "Timeout 10000ms exceeded"]⟩
      "Timeout 10000ms exceeded" (by decide)).trans (by decide)⟩

/-! ## Properties of the Item Extractor -/

theorem processItem_ok_shape (http : String → Resp)
    (slug folder pageUrl : String) (idx : Nat) (d : ItemData) (fs : FS) :
    ∃ (F : List (String × String)) (ev : Ev),
      processItem http slug folder pageUrl idx (ItemStep.ok d) fs =
        (⟨F, fs.metadata ++ [metaRecOf slug idx d], fs.failed⟩, [ev]) := by
  by_cases hex : existsFile fs.files (folder ++ "/" ++ computeFilename slug idx d) = true
  · exact ⟨fs.files,
      Ev.alreadyDownloaded (folder ++ "/" ++ computeFilename slug idx d),
      by simp [processItem, hex]⟩
  · have hex' : existsFile fs.files (folder ++ "/" ++ computeFilename slug idx d) = false :=
      Bool.not_eq_true _ ▸ eq_false_of_ne_true hex
    by_cases hst : (http d.mp3Url).status = 200
    · exact ⟨writeFile fs.files (folder ++ "/" ++ computeFilename slug idx d)
          (http d.mp3Url).body,
        Ev.downloaded (folder ++ "/" ++ computeFilename slug idx d),
        by simp [processItem, hex', download_mp3, hst]⟩
    · exact ⟨fs.files, Ev.downloadFailed d.mp3Url,
        by simp [processItem, hex', download_mp3, hst]⟩

/-- Claim C4: when the asset URL answers with a non-200 status and no
file exists at the destination path, the extraction of that item leaves
the file store untouched (no file is created at the destination path),
reports the failure as its only event without raising, and still
appends exactly one metadata record for the item. -/
theorem claim_C4 (http : String → Resp) (slug folder pageUrl : String)
    (idx : Nat) (d : ItemData) (fs : FS)
    (hstatus : (http d.mp3Url).status ≠ 200)
    (habs : existsFile fs.files (folder ++ "/" ++ computeFilename slug idx d) = false) :
    (processItem http slug folder pageUrl idx (ItemStep.ok d) fs).1 =
      { fs with metadata := fs.metadata ++ [metaRecOf slug idx d] } ∧
    (processItem http slug folder pageUrl idx (ItemStep.ok d) fs).2 =
      [Ev.downloadFailed d.mp3Url] ∧
    existsFile (processItem http slug folder pageUrl idx (ItemStep.ok d) fs).1.files
      (folder ++ "/" ++ computeFilename slug idx d) = false := by
  have hdl : download_mp3 http d.mp3Url
      (folder ++ "/" ++ computeFilename slug idx d) fs = (fs, false) := by
    rw [download_mp3, if_neg hstatus]
  refine ⟨?_, ?_, ?_⟩ <;> simp [processItem, habs, hdl]

/-- Witness for claim C4 at a concrete 404 response. -/
theorem claim_C4_witness :
    ((fun _ : String => Resp.mk 404 "not found") "http://h/a.mp3").status ≠ 200 ∧
    (processItem (fun _ : String => Resp.mk 404 "not found") "seminars" "downloads/seminars"
        "https://example.org/p" 0
        (ItemStep.ok ⟨"http://h/a.mp3", some "T", some "March 3, 2024", some "S", some "R"⟩)
        ⟨[], [], []⟩).1.files = [] :=
  ⟨by decide, by
    have h := claim_C4 (fun _ : String => Resp.mk 404 "not found") "seminars"
      "downloads/seminars" "https://example.org/p" 0
      ⟨"http://h/a.mp3", some "T", some "March 3, 2024", some "S", some "R"⟩
      ⟨[], [], []⟩ (by decide) (by decide)
    rw [h.1]⟩

/-- Claim C6: the destination filename is exactly
`<catalogSlug>_<normalizedDate>_<sanitizedSeries>_<sanitizedSpeaker>_<sanitizedTitle><extension>`
with the extension taken from the asset URL by `splitext`, and the full
destination path under `downloads/<catalogSlug>` is a pure function of
those six components: items agreeing on all components map to the same
path. -/
theorem claim_C6 :
    (∀ (slug : String) (idx : Nat) (d : ItemData),
      computeFilename slug idx d =
        slug ++ "_" ++ get_date_slug (itemDate d) ++ "_" ++
          sanitize_filename (itemSeries d) ++ "_" ++
          sanitize_filename (itemSpeaker d) ++ "_" ++
          sanitize_filename (itemTitle idx d) ++ splitextExt d.mp3Url) ∧
    (∀ (slug1 slug2 : String) (idx1 idx2 : Nat) (d1 d2 : ItemData),
      slug1 = slug2 →
      get_date_slug (itemDate d1) = get_date_slug (itemDate d2) →
      sanitize_filename (itemSeries d1) = sanitize_filename (itemSeries d2) →
      sanitize_filename (itemSpeaker d1) = sanitize_filename (itemSpeaker d2) →
      sanitize_filename (itemTitle idx1 d1) = sanitize_filename (itemTitle idx2 d2) →
      splitextExt d1.mp3Url = splitextExt d2.mp3Url →
      "downloads/" ++ slug1 ++ "/" ++ computeFilename slug1 idx1 d1 =
        "downloads/" ++ slug2 ++ "/" ++ computeFilename slug2 idx2 d2) := by
  refine ⟨fun slug idx d => rfl, ?_⟩
  intro slug1 slug2 idx1 idx2 d1 d2 h0 h1 h2 h3 h4 h5
  rw [computeFilename, computeFilename, h0, h1, h2, h3, h4, h5]

/-- Witness for claim C6: two distinct items whose noisy text fields
sanitize to the same components map to the same destination path. -/
theorem claim_C6_witness :
    sanitize_filename "Hello World" = sanitize_filename "hello---WORLD!" ∧
    "downloads/" ++ "seminars" ++ "/" ++ computeFilename "seminars" 0
        ⟨"http://h/a.mp3", some "Hello World", some " March 3, 2024",
         some "John Doe", some "Acts"⟩ =
      "downloads/" ++ "seminars" ++ "/" ++ computeFilename "seminars" 7
        ⟨"http://h/b.mp3", some "hello---WORLD!", some "March 3, 2024 ",
         some "John? Doe.", some "ACTS"⟩ :=
  ⟨by decide,
    claim_C6.2 "seminars" "seminars" 0 7
      ⟨"http://h/a.mp3", some "Hello World", some " March 3, 2024",
       some "John Doe", some "Acts"⟩
      ⟨"http://h/b.mp3", some "hello---WORLD!", some "March 3, 2024 ",
       some "John? Doe.", some "ACTS"⟩
      rfl (by decide) (by decide) (by decide) (by decide) (by decide)⟩

theorem filter_writeFile_count (files : List (String × String))
    (path content : String) :
    ((writeFile files path content).filter (fun e => e.1 == path)).length = 1 := by
  rw [writeFile]
  have hrest : ((files.filter fun e => !(e.1 == path)).filter
      (fun e => e.1 == path)) = [] := by
    induction files with
    | nil => rfl
    | cons e fsx ih =>
      cases he : (e.1 == path) with
      | false => simp [List.filter_cons, he, ih]
      | true => simp [List.filter_cons, he, ih]
  simp [List.filter_cons, hrest]

/-- Claim C7: extracting the same item twice with the file initially
absent and the fetch succeeding is idempotent on the file store but not
on the metadata log — the first run downloads the asset, the second run
skips the download because the file already exists, exactly one file
entry exists at the destination path afterwards, and each run appends
one metadata record, leaving two. -/
theorem claim_C7 (http : String → Resp) (slug folder pageUrl : String)
    (idx : Nat) (d : ItemData) (fs : FS)
    (hstatus : (http d.mp3Url).status = 200)
    (habs : existsFile fs.files (folder ++ "/" ++ computeFilename slug idx d) = false) :
    (processItem http slug folder pageUrl idx (ItemStep.ok d) fs).2 =
      [Ev.downloaded (folder ++ "/" ++ computeFilename slug idx d)] ∧
    (processItem http slug folder pageUrl idx (ItemStep.ok d)
        (processItem http slug folder pageUrl idx (ItemStep.ok d) fs).1).2 =
      [Ev.alreadyDownloaded (folder ++ "/" ++ computeFilename slug idx d)] ∧
    (processItem http slug folder pageUrl idx (ItemStep.ok d)
        (processItem http slug folder pageUrl idx (ItemStep.ok d) fs).1).1.files =
      (processItem http slug folder pageUrl idx (ItemStep.ok d) fs).1.files ∧
    ((processItem http slug folder pageUrl idx (ItemStep.ok d)
        (processItem http slug folder pageUrl idx (ItemStep.ok d) fs).1).1.files.filter
      (fun e => e.1 == folder ++ "/" ++ computeFilename slug idx d)).length = 1 ∧
    (processItem http slug folder pageUrl idx (ItemStep.ok d)
        (processItem http slug folder pageUrl idx (ItemStep.ok d) fs).1).1.metadata =
      fs.metadata ++ [metaRecOf slug idx d, metaRecOf slug idx d] := by
  have hdl : download_mp3 http d.mp3Url
      (folder ++ "/" ++ computeFilename slug idx d) fs =
      ((⟨writeFile fs.files (folder ++ "/" ++ computeFilename slug idx d) (http d.mp3Url).body, fs.metadata, fs.failed⟩ : FS), true) := by
    rw [download_mp3, if_pos hstatus]
  have hr1 : processItem http slug folder pageUrl idx (ItemStep.ok d) fs =
      (⟨writeFile fs.files (folder ++ "/" ++ computeFilename slug idx d)
          (http d.mp3Url).body,
        fs.metadata ++ [metaRecOf slug idx d], fs.failed⟩,
       [Ev.downloaded (folder ++ "/" ++ computeFilename slug idx d)]) := by
    simp [processItem, habs, hdl]
  have hex2 : existsFile (writeFile fs.files
      (folder ++ "/" ++ computeFilename slug idx d) (http d.mp3Url).body)
      (folder ++ "/" ++ computeFilename slug idx d) = true := by
    simp [existsFile, writeFile]
  rw [hr1]
  have hr2 : processItem http slug folder pageUrl idx (ItemStep.ok d)
      (⟨writeFile fs.files (folder ++ "/" ++ computeFilename slug idx d)
          (http d.mp3Url).body,
        fs.metadata ++ [metaRecOf slug idx d], fs.failed⟩ : FS) =
      (⟨writeFile fs.files (folder ++ "/" ++ computeFilename slug idx d)
          (http d.mp3Url).body,
        (fs.metadata ++ [metaRecOf slug idx d]) ++ [metaRecOf slug idx d],
        fs.failed⟩,
       [Ev.alreadyDownloaded (folder ++ "/" ++ computeFilename slug idx d)]) := by
    simp [processItem, hex2]
  rw [hr2]
  refine ⟨rfl, rfl, rfl, filter_writeFile_count fs.files _ _, by simp⟩

/-- Witness for claim C7 at a concrete successful response. -/
theorem claim_C7_witness :
    ((fun _ : String => Resp.mk 200 "bytes") "http://h/a.mp3").status = 200 ∧
    (processItem (fun _ : String => Resp.mk 200 "bytes") "seminars" "downloads/seminars"
        "https://example.org/p" 0
        (ItemStep.ok ⟨"http://h/a.mp3", some "T", some "March 3, 2024", some "S", some "R"⟩)
        (processItem (fun _ : String => Resp.mk 200 "bytes") "seminars" "downloads/seminars"
          "https://example.org/p" 0
          (ItemStep.ok ⟨"http://h/a.mp3", some "T", some "March 3, 2024", some "S", some "R"⟩)
          ⟨[], [], []⟩).1).1.metadata.length = 2 :=
  ⟨by decide, by
    have h := claim_C7 (fun _ : String => Resp.mk 200 "bytes") "seminars"
      "downloads/seminars" "https://example.org/p" 0
      ⟨"http://h/a.mp3", some "T", some "March 3, 2024", some "S", some "R"⟩
      ⟨[], [], []⟩ (by decide) (by decide)
    rw [h.2.2.2.2]
    decide⟩

/-- Claim C8: the item loop catches every per-item exception — it
appends exactly one failure block per raising item, carrying the item's
one-based position, the page URL and the error text, it emits one event
per item (so every item on the page is attempted, failures included),
and completed items alone contribute metadata records. -/
theorem claim_C8 (http : String → Resp) (slug folder pageUrl : String)
    (idx : Nat) (fs : FS) (steps : List ItemStep) :
    (processItems http slug folder pageUrl idx fs steps).1.failed =
      fs.failed ++ failBlocks pageUrl idx steps ∧
    (processItems http slug folder pageUrl idx fs steps).2.length = steps.length ∧
    (processItems http slug folder pageUrl idx fs steps).1.metadata.length =
      fs.metadata.length + (steps.filter isOkStep).length := by
  induction steps generalizing idx fs with
  | nil => simp [processItems, failBlocks]
  | cons s rest ih =>
    cases s with
    | raise msg =>
      have hstep := ih (idx + 1)
        { fs with failed := fs.failed ++ [⟨idx + 1, pageUrl, msg⟩] }
      refine ⟨?_, ?_, ?_⟩ <;>
        simp [processItems, processItem, failBlocks, isOkStep, List.filter_cons,
          hstep.1, hstep.2.1, hstep.2.2]
    | ok d =>
      obtain ⟨F, ev, heq⟩ := processItem_ok_shape http slug folder pageUrl idx d fs
      have hstep := ih (idx + 1) ⟨F, fs.metadata ++ [metaRecOf slug idx d], fs.failed⟩
      refine ⟨?_, ?_, ?_⟩ <;>
        (simp [processItems, heq, failBlocks, isOkStep, List.filter_cons,
          hstep.1, hstep.2.1, hstep.2.2]
         try omega)

/-- Witness for the amended claim C5 on the spec's discovery scenario:
duplicated sermon links are deduplicated, the entry URL is excluded,
and the remaining catalog links are returned. -/
theorem claim_C5_witness :
    "https://providencebiblefellowship.com/events" ∈
      get_subpages [START_URL,
        "https://providencebiblefellowship.com/sermons",
        "https://providencebiblefellowship.com/sermons",
        "https://providencebiblefellowship.com/events"] ∧
    START_URL ∉
      get_subpages [START_URL,
        "https://providencebiblefellowship.com/sermons",
        "https://providencebiblefellowship.com/sermons",
        "https://providencebiblefellowship.com/events"] :=
  ⟨((claim_C5 [START_URL,
      "https://providencebiblefellowship.com/sermons",
      "https://providencebiblefellowship.com/sermons",
      "https://providencebiblefellowship.com/events"]).2.1
      "https://providencebiblefellowship.com/events").mpr
      ⟨by decide, by decide, by decide⟩,
   (claim_C5 [START_URL,
      "https://providencebiblefellowship.com/sermons",
      "https://providencebiblefellowship.com/sermons",
      "https://providencebiblefellowship.com/events"]).2.2.1⟩

/-- Witness for claim C8 at a concrete page whose second item raises:
the failure log gains exactly the block for position 2 and the other
items are still attempted. -/
theorem claim_C8_witness :
    (processItems (fun _ : String => Resp.mk 200 "b") "seminars" "downloads/seminars"
        "https://example.org/p?page=2" 0 ⟨[], [], []⟩
        [ItemStep.ok ⟨"http://h/a.mp3", some "T", some "March 3, 2024", some "S", some "R"⟩,
         ItemStep.raise "Timeout 10000ms exceeded",
         ItemStep.ok ⟨"http://h/c.mp3", some "U", some "May 5, 2024", some "S", some "R"⟩]).1.failed =
      [⟨2, "https://example.org/p?page=2", "Timeout 10000ms exceeded"⟩] ∧
    (processItems (fun _ : String => Resp.mk 200 "b") "seminars" "downloads/seminars"
        "https://example.org/p?page=2" 0 ⟨[], [], []⟩
        [ItemStep.ok ⟨"http://h/a.mp3", some "T", some "March 3, 2024", some "S", some "R"⟩,
         ItemStep.raise "Timeout 10000ms exceeded",
         ItemStep.ok ⟨"http://h/c.mp3", some "U", some "May 5, 2024", some "S", some "R"⟩]).2.length = 3 :=
  ⟨((claim_C8 (fun _ : String => Resp.mk 200 "b") "seminars" "downloads/seminars"
      "https://example.org/p?page=2" 0 ⟨[], [], []⟩
      [ItemStep.ok ⟨"http://h/a.mp3", some "T", some "March 3, 2024", some "S", some "R"⟩,
       ItemStep.raise "Timeout 10000ms exceeded",
       ItemStep.ok ⟨"http://h/c.mp3", some "U", some "May 5, 2024", some "S", some "R"⟩]).1).trans
      (by decide),
   ((claim_C8 (fun _ : String => Resp.mk 200 "b") "seminars" "downloads/seminars"
      "https://example.org/p?page=2" 0 ⟨[], [], []⟩
      [ItemStep.ok ⟨"http://h/a.mp3", some "T", some "March 3, 2024", some "S", some "R"⟩,
       ItemStep.raise "Timeout 10000ms exceeded",
       ItemStep.ok ⟨"http://h/c.mp3", some "U", some "May 5, 2024", some "S", some "R"⟩]).2.1).trans
      (by decide)⟩
